import Mathlib

/-
Verification of the habit-tracker prediction / model-evaluation subsystem.

Shallow embedding conventions:
- JavaScript numbers are modelled as exact rationals; the one place where the
  IEEE value NaN is observable (arithmetic against an out-of-range array index,
  and 0/0) is modelled explicitly by the type JSVal below.
- Calendar dates ("YYYY-MM-DD" strings) are modelled as integer day numbers
  (days since the epoch); getTime() of such a date is day * 86400000, so all
  date comparisons coincide.  Date.now() and prediction target dates are
  rationals measured in days, threaded as an explicit `now` / `targetDate`
  argument.  getDay() is day-of-week with the UTC convention
  (epoch day 0 was a Thursday, hence the +4 below).
- Array.prototype.sort is required to be stable by the ECMAScript standard;
  it is modelled by insertion sort with the relation that puts the earlier
  element first on ties, which produces the unique stable result.
- The transcendental library functions Math.log1p and Math.exp (inside the
  sigmoid) and Math.sqrt have no rational counterpart; they are passed as
  explicit function arguments, and every theorem that touches them assumes
  only properties the real functions have (exp 0 = 1, log1p positive on
  positive arguments, sqrt q = 0 iff q = 0 for q >= 0). Concrete stand-ins
  satisfying those properties are used to evaluate closed instances.
- Free-form explanation strings and loggedAt timestamps are never read by any
  computation verified here and are not modelled.
-/

/-- Model of a JavaScript number that may be NaN.  Arithmetic propagates NaN,
as IEEE arithmetic does; reading an array beyond its length yields undefined,
and undefined entering arithmetic also yields NaN. -/
inductive JSVal where
  | num (q : ℚ)
  | nan
deriving DecidableEq

def jsAdd : JSVal → JSVal → JSVal
  | .num a, .num b => .num (a + b)
  | _, _ => .nan

def jsMul : JSVal → JSVal → JSVal
  | .num a, .num b => .num (a * b)
  | _, _ => .nan

/-- Division as it occurs in this codebase: every zero denominator here comes
with a zero numerator, and 0/0 is NaN in JavaScript. -/
def jsDiv : JSVal → JSVal → JSVal
  | .num a, .num b => if b = 0 then .nan else .num (a / b)
  | _, _ => .nan

/-- Extract the rational value of a JS number, defaulting NaN to 0.  Used only
where the surrounding code guarantees the value is a number (see call sites). -/
def JSVal.toQ : JSVal → ℚ
  | .num q => q
  | .nan => 0

/-- Stable descending sort by a rational key: the model of
array.sort((a, b) => key(b) - key(a)).  ECMAScript requires sort to be
stable, and a stable sort with this comparator has exactly one possible
output, which insertion sort with this relation produces. -/
def sortByDesc {α : Type} (key : α → ℚ) (l : List α) : List α :=
  l.insertionSort (fun a b => key b ≤ key a)

/-- Stable ascending sort by a rational key: the model of
array.sort((a, b) => a - b). -/
def sortByAsc {α : Type} (key : α → ℚ) (l : List α) : List α :=
  l.insertionSort (fun a b => key a ≤ key b)

/- ===== Data model (types/habit.ts) ===== -/

inductive TimeOfDay where
  | morning | afternoon | evening | anytime
deriving DecidableEq

inductive Mood where
  | poor | okay | good | great
deriving DecidableEq

inductive Weather where
  | sunny | cloudy | rainy | snowy
deriving DecidableEq

/-- Habit record.  Identifier-like strings are modelled as naturals; the
category string is modelled as its list of UTF-16 character codes, which is
all encodeFeatures reads of it.  createdAt is an integer day number. -/
structure Habit where
  id : ℕ
  name : ℕ
  category : List ℕ
  preferredTime : TimeOfDay
  createdAt : ℤ
  isActive : Bool
deriving DecidableEq

/-- HabitLog record.  date is an integer day number; the optional contextual
fields are Options. -/
structure HabitLog where
  id : ℕ
  habitId : ℕ
  date : ℤ
  completed : Bool
  mood : Option Mood := none
  sleepHours : Option ℚ := none
  energyLevel : Option ℚ := none
  stressLevel : Option ℚ := none
  weather : Option Weather := none
deriving DecidableEq

structure HabitStats where
  habitId : ℕ
  totalLogs : ℕ
  completedLogs : ℕ
  successRate : ℚ
  currentStreak : ℕ
  longestStreak : ℕ
  daysSinceLastLog : ℤ
deriving DecidableEq

/- ===== habit-utils.ts ===== -/

/-- calculateHabitStats from habit-utils.ts.  `now` is the value of
Date.now() in (fractional) days.  Note two faithful quirks of the source:
the current-streak loop walks the most-recent-first order and breaks at the
first non-completed log without checking date gaps, and sortedLogs.reverse()
mutates the array in place, so the subsequent sortedLogs[0] used for
daysSinceLastLog is the OLDEST log, not the most recent one. -/
def calculateHabitStats (now : ℚ) (habit : Habit) (logs : List HabitLog) : HabitStats :=
  let habitLogs := logs.filter (fun l => l.habitId == habit.id)
  let completedLogs := habitLogs.filter (fun l => l.completed)
  let totalLogs := habitLogs.length
  let completedCount := completedLogs.length
  let successRate : ℚ := if 0 < totalLogs then (completedCount : ℚ) / (totalLogs : ℚ) else 0
  let sortedLogs := sortByDesc (fun l => (l.date : ℚ)) habitLogs
  let currentStreak := (sortedLogs.takeWhile (fun l => l.completed)).length
  let asc := sortedLogs.reverse
  let longestStreak := (asc.foldl
    (fun (acc : ℕ × ℕ) l =>
      if l.completed then (max acc.1 (acc.2 + 1), acc.2 + 1) else (acc.1, 0)) (0, 0)).1
  let lastLog := asc.head?
  let daysSinceLastLog : ℤ :=
    match lastLog with
    | some l => Int.floor (now - (l.date : ℚ))
    | none => 999
  ⟨habit.id, totalLogs, completedCount, successRate, currentStreak, longestStreak,
    daysSinceLastLog⟩

/- ===== ml-features.ts ===== -/

/-- The feature record produced by extractFeatures (MLFeatures in
types/habit.ts). -/
structure MLFeatures where
  habitId : ℕ
  dayOfWeek : ℤ
  timeOfDay : TimeOfDay
  mood : Option Mood
  sleepHours : Option ℚ
  energyLevel : Option ℚ
  stressLevel : Option ℚ
  weather : Option Weather
  streak : ℕ
  daysSinceLastLog : ℤ
  successRate : ℚ
  category : List ℕ
  daysSinceCreated : ℤ
  isWeekend : Bool
deriving DecidableEq

/-- Day of week of a point in time measured in days since the epoch
(0 = Sunday .. 6 = Saturday, UTC convention: day 0 was a Thursday). -/
def dayOfWeekOf (t : ℚ) : ℤ := (Int.floor t + 4).emod 7

/-- The most recent log of the habit dated on or before the target date:
habitLogs.filter(date <= targetDate).sort(most recent first)[0]. -/
def recentLogFor (habit : Habit) (logs : List HabitLog) (targetDate : ℚ) : Option HabitLog :=
  (sortByDesc (fun l => (l.date : ℚ))
    ((logs.filter (fun l => l.habitId == habit.id)).filter
      (fun l => decide ((l.date : ℚ) ≤ targetDate)))).head?

/-- extractFeatures from ml-features.ts.  Note the faithful quirk behind the
look-ahead-leakage question: the stats (streak, success rate, days since last
log) are computed by calculateHabitStats over ALL logs of the habit, with no
filtering by targetDate; only the contextual fields come from the most recent
log on or before targetDate. -/
def extractFeatures (now : ℚ) (habit : Habit) (logs : List HabitLog) (targetDate : ℚ) :
    MLFeatures :=
  let stats := calculateHabitStats now habit logs
  let recentLog := recentLogFor habit logs targetDate
  let daysSinceCreated : ℤ := Int.floor (targetDate - (habit.createdAt : ℚ))
  let dow := dayOfWeekOf targetDate
  { habitId := habit.id
    dayOfWeek := dow
    timeOfDay := habit.preferredTime
    mood := recentLog.bind (fun l => l.mood)
    sleepHours := recentLog.bind (fun l => l.sleepHours)
    energyLevel := recentLog.bind (fun l => l.energyLevel)
    stressLevel := recentLog.bind (fun l => l.stressLevel)
    weather := recentLog.bind (fun l => l.weather)
    streak := stats.currentStreak
    daysSinceLastLog := stats.daysSinceLastLog
    successRate := stats.successRate
    category := habit.category
    daysSinceCreated := daysSinceCreated
    isWeekend := dow == 0 || dow == 6 }

/-- The polynomial rolling category hash of encodeFeatures:
reduce(((hash << 5) - hash + charCode) & 0xffff, 0).  The accumulator is
always in [0, 0xffff], so the shift never overflows 32 bits and the masked
result equals (31 * hash + code) mod 65536. -/
def categoryHash (category : List ℕ) : ℕ :=
  category.foldl (fun hash c => (hash * 32 - hash + c) % 65536) 0

/-- encodeFeatures from ml-features.ts, written as the 19-entry vector the
sequence of pushes produces, in push order.  JavaScript truthiness is modelled
faithfully: a contextual numeric field that is present but equal to 0 is falsy
and falls back to the same default as a missing field.  log1p stands for
Math.log1p. -/
def encodeFeatures (log1p : ℚ → ℚ) (f : MLFeatures) : List ℚ :=
  [ (f.dayOfWeek : ℚ) / 6,                                            -- 0: day of week
    (if f.timeOfDay = .morning then 1 else 0),                        -- 1-4: time one-hot
    (if f.timeOfDay = .afternoon then 1 else 0),
    (if f.timeOfDay = .evening then 1 else 0),
    (if f.timeOfDay = .anytime then 1 else 0),
    (match f.mood with                                                -- 5: mood
     | some .poor => 0
     | some .okay => 33/100
     | some .good => 67/100
     | some .great => 1
     | none => 1/2),
    (match f.sleepHours with                                          -- 6: sleep hours
     | some h => if h = 0 then 3/4 else min (h / 10) 1
     | none => 3/4),
    (match f.energyLevel with                                         -- 7: energy level
     | some v => if v = 0 then 1/2 else (v - 1) / 4
     | none => 1/2),
    (match f.stressLevel with                                         -- 8: stress level
     | some v => if v = 0 then 1/2 else 1 - (v - 1) / 4
     | none => 1/2),
    (if f.weather = some .sunny then 1 else 0),                       -- 9-12: weather one-hot
    (if f.weather = some .cloudy then 1 else 0),
    (if f.weather = some .rainy then 1 else 0),
    (if f.weather = some .snowy then 1 else 0),
    min (log1p (f.streak : ℚ) / log1p 30) 1,                          -- 13: streak
    min ((f.daysSinceLastLog : ℚ) / 30) 1,                            -- 14: days since last log
    f.successRate,                                                    -- 15: success rate
    ((categoryHash f.category % 100 : ℕ) : ℚ) / 100,                  -- 16: category hash
    min (log1p (f.daysSinceCreated : ℚ) / log1p 365) 1,               -- 17: days since created
    (if f.isWeekend then 1 else 0) ]                                  -- 18: is weekend

structure TrainingData where
  features : List (List ℚ)
  labels : List ℚ
  metadata : List (ℕ × ℤ)
deriving DecidableEq

/-- createTrainingData from ml-features.ts: one sample per (habit, log of that
habit) pair, in habit-major order; the feature vector is extracted with the
log date as target date and the label is the completion flag. -/
def createTrainingData (log1p : ℚ → ℚ) (now : ℚ) (habits : List Habit)
    (logs : List HabitLog) : TrainingData :=
  let samples := habits.flatMap (fun habit =>
    (logs.filter (fun l => l.habitId == habit.id)).map (fun log =>
      (encodeFeatures log1p (extractFeatures now habit logs (log.date : ℚ)),
       (if log.completed then (1 : ℚ) else 0),
       (habit.id, log.date))))
  ⟨samples.map (fun s => s.1), samples.map (fun s => s.2.1), samples.map (fun s => s.2.2)⟩

/-- calculateCorrelation from ml-features.ts (Pearson correlation; sqrt stands
for Math.sqrt).  The loop bound is x.length, matching the source. -/
def calculateCorrelation (sqrt : ℚ → ℚ) (x y : List ℚ) : ℚ :=
  let n := x.length
  if n = 0 then 0
  else
    let meanX := x.sum / (n : ℚ)
    let meanY := y.sum / (n : ℚ)
    let numerator := ((List.range n).map
      (fun i => (x.getD i 0 - meanX) * (y.getD i 0 - meanY))).sum
    let denomX := ((List.range n).map
      (fun i => (x.getD i 0 - meanX) * (x.getD i 0 - meanX))).sum
    let denomY := ((List.range n).map
      (fun i => (y.getD i 0 - meanY) * (y.getD i 0 - meanY))).sum
    let denominator := sqrt (denomX * denomY)
    if denominator = 0 then 0 else numerator / denominator

/- ===== ml-models.ts ===== -/

/-- The mutable state of a LogisticRegression instance: weights and bias.
A freshly constructed instance has weights = [] (not a zero vector!) and
bias = 0. -/
structure LogisticRegressionState where
  weights : List ℚ
  bias : ℚ
deriving DecidableEq

namespace LogisticRegression

/-- State of a freshly constructed, untrained LogisticRegression. -/
def init : LogisticRegressionState := ⟨[], 0⟩

/-- this.weights[i] as JavaScript reads it: undefined (hence NaN once it
enters arithmetic) when i is out of range. -/
def weightAt (w : List ℚ) (i : ℕ) : JSVal :=
  match w.get? i with
  | some q => .num q
  | none => .nan

/-- The dot product z = features.reduce((sum, feature, i) =>
sum + feature * weights[i], bias).  NaN propagates, so an untrained
(empty-weights) model yields NaN for any nonempty input. -/
def zOf (st : LogisticRegressionState) (x : List ℚ) : JSVal :=
  x.enum.foldl (fun sum p => jsAdd sum (jsMul (.num p.2) (weightAt st.weights p.1)))
    (.num st.bias)

/-- The sigmoid of ml-models.ts: 1 / (1 + exp(-clamp(z))) with the argument
clamped to [-500, 500] first.  expf stands for Math.exp; NaN maps to NaN
exactly as in IEEE arithmetic. -/
def sigmoid (expf : ℚ → ℚ) : JSVal → JSVal
  | .nan => .nan
  | .num z => .num (1 / (1 + expf (-(max (-500) (min 500 z)))))

/-- LogisticRegression.predict. -/
def predict (expf : ℚ → ℚ) (st : LogisticRegressionState) (x : List ℚ) : JSVal :=
  sigmoid expf (zOf st x)

end LogisticRegression

/-- A node of the trained decision tree.  buildTree always fills
featureIndex/threshold/children on interior nodes and prediction on leaves,
which this inductive reflects. -/
inductive TreeNode where
  | leaf (prediction : ℚ)
  | split (featureIndex : ℕ) (threshold : ℚ) (left right : TreeNode)
deriving DecidableEq

namespace DecisionTree

/-- DecisionTree.calculateGini: 1 - sum over distinct label values of
(count/total)^2; 0 for the empty set. -/
def calculateGini (labels : List ℚ) : ℚ :=
  if labels = [] then 0
  else
    1 - (labels.dedup.map (fun v =>
      ((labels.countP (fun x => decide (x = v)) : ℚ) / (labels.length : ℚ)) *
      ((labels.countP (fun x => decide (x = v)) : ℚ) / (labels.length : ℚ)))).sum

/-- Midpoints of consecutive entries of a list (the candidate thresholds
scanned for one feature, in scan order). -/
def midpoints : List ℚ → List ℚ
  | a :: b :: rest => (a + b) / 2 :: midpoints (b :: rest)
  | _ => []

/-- DecisionTree.findBestSplit: scan every feature index, and for each, the
midpoints of the ascending-sorted column values; skip splits with an empty
side; keep the first candidate attaining the minimal sample-weighted Gini
impurity (strict improvement required to replace the incumbent).  Returns
(featureIndex, threshold, gini) or none, like the source returning null when
bestFeatureIndex stayed -1. -/
def findBestSplit (features : List (List ℚ)) (labels : List ℚ) :
    Option (ℕ × ℚ × ℚ) :=
  let numFeatures := (features.head?.map List.length).getD 0
  let cands := (List.range numFeatures).flatMap (fun fi =>
    (midpoints (sortByAsc id (features.map (fun f => f.getD fi 0)))).map
      (fun th => (fi, th)))
  cands.foldl (fun best c =>
    let leftLabels := ((features.zip labels).filter
      (fun p => decide (p.1.getD c.1 0 ≤ c.2))).map (fun p => p.2)
    let rightLabels := ((features.zip labels).filter
      (fun p => !decide (p.1.getD c.1 0 ≤ c.2))).map (fun p => p.2)
    if leftLabels = [] ∨ rightLabels = [] then best
    else
      let weightedGini := ((leftLabels.length : ℚ) * calculateGini leftLabels +
        (rightLabels.length : ℚ) * calculateGini rightLabels) / (labels.length : ℚ)
      match best with
      | none => some (c.1, c.2, weightedGini)
      | some b => if weightedGini < b.2.2 then some (c.1, c.2, weightedGini) else best)
    none

/-- DecisionTree.buildTree.  Stopping conditions: depth at maxDepth, fewer
labels than minSamples, or a single distinct label; a leaf stores the mean
label.  (For empty labels the source mean is NaN; here rational division
gives 0, and both make predict fall back to 0.5 through the || 0.5 below, so
the observable behavior agrees.) -/
def buildTree (maxDepth minSamples : ℕ) (features : List (List ℚ)) (labels : List ℚ)
    (depth : ℕ) : TreeNode :=
  if h : maxDepth ≤ depth ∨ labels.length < minSamples ∨ labels.dedup.length = 1 then
    .leaf (labels.sum / (labels.length : ℚ))
  else
    match findBestSplit features labels with
    | none => .leaf (labels.sum / (labels.length : ℚ))
    | some best =>
      let pairs := features.zip labels
      let leftPairs := pairs.filter (fun p => decide (p.1.getD best.1 0 ≤ best.2.1))
      let rightPairs := pairs.filter (fun p => !decide (p.1.getD best.1 0 ≤ best.2.1))
      .split best.1 best.2.1
        (buildTree maxDepth minSamples (leftPairs.map (fun p => p.1))
          (leftPairs.map (fun p => p.2)) (depth + 1))
        (buildTree maxDepth minSamples (rightPairs.map (fun p => p.1))
          (rightPairs.map (fun p => p.2)) (depth + 1))
termination_by maxDepth - depth
decreasing_by all_goals (push_neg at h; omega)

/-- DecisionTree.train: a no-op on an empty feature set (the root keeps its
previous value, initially null), otherwise replaces the root. -/
def train (maxDepth minSamples : ℕ) (prev : Option TreeNode)
    (features : List (List ℚ)) (labels : List ℚ) : Option TreeNode :=
  if features = [] then prev else some (buildTree maxDepth minSamples features labels 0)

/-- The root-to-leaf walk of DecisionTree.predict, returning the stored value
of the reached leaf.  An out-of-range feature read compares as
undefined <= threshold, which is false, so the walk goes right. -/
def walk : TreeNode → List ℚ → ℚ
  | .leaf v, _ => v
  | .split fi th l r, x =>
    match x.get? fi with
    | some xv => if xv ≤ th then walk l x else walk r x
    | none => walk r x

/-- DecisionTree.predict: 0.5 with no trained tree; otherwise the reached
leaf value filtered through the JavaScript expression
(node.prediction || 0.5), which turns the (falsy) stored value 0 into 0.5. -/
def predict (root : Option TreeNode) (x : List ℚ) : ℚ :=
  match root with
  | none => 1/2
  | some t => let v := walk t x; if v = 0 then 1/2 else v

end DecisionTree

/- ===== model-evaluation.ts ===== -/

structure ConfusionMatrix where
  truePositive : ℕ
  trueNegative : ℕ
  falsePositive : ℕ
  falseNegative : ℕ
deriving DecidableEq

/-- One class line of the classification report.  The source fields are
named precision and recall; both words are reserved tokens in this Lean
setup, hence the Score suffix. -/
structure ClassReportEntry where
  precisionScore : ℚ
  recallScore : ℚ
  f1Score : ℚ
  support : ℕ
deriving DecidableEq

/-- The ModelMetrics record of model-evaluation.ts.  accuracy and the
weighted averages carry no || 0 guard in the source and hence can be NaN
(JSVal); the guarded quantities are plain rationals. -/
structure ModelMetrics where
  accuracy : JSVal
  precisionScore : ℚ
  recallScore : ℚ
  f1Score : ℚ
  confusionMatrix : ConfusionMatrix
  rocAuc : Option ℚ
  positive : ClassReportEntry
  negative : ClassReportEntry
  macroPrecision : ℚ
  macroRecall : ℚ
  macroF1 : ℚ
  weightedPrecision : JSVal
  weightedRecall : JSVal
  weightedF1 : JSVal
deriving DecidableEq

namespace ModelEvaluator

/-- The threshold-sweep accumulation loop of calculateROCAUC over the
probability-descending sample list, carried state (tpr, fpr, auc, tp, fp).
A trapezoid is added whenever the next sample has a different probability
(or the list ends). -/
def aucLoop (pos neg : ℚ) : List (ℚ × ℚ) → ℚ → ℚ → ℚ → ℚ → ℚ → ℚ
  | [], _, _, auc, _, _ => auc
  | (a, p) :: rest, tpr, fpr, auc, tp, fp =>
    let tp2 := if a = 1 then tp + 1 else tp
    let fp2 := if a = 1 then fp else fp + 1
    let boundary := match rest with
      | [] => true
      | (_, p2) :: _ => decide (p ≠ p2)
    if boundary then
      let newTPR := tp2 / pos
      let newFPR := fp2 / neg
      aucLoop pos neg rest newTPR newFPR (auc + (newFPR - fpr) * (tpr + newTPR) / 2) tp2 fp2
    else
      aucLoop pos neg rest tpr fpr auc tp2 fp2

/-- ModelEvaluator.calculateROCAUC: sort by probability descending (stable),
return 0.5 when a class is absent, otherwise trapezoidal integration. -/
def calculateROCAUC (actuals probabilities : List ℚ) : ℚ :=
  let sorted := sortByDesc (fun s => s.2) (actuals.zip probabilities)
  let positives := actuals.countP (fun a => decide (a = 1))
  let negatives := actuals.length - positives
  if positives = 0 ∨ negatives = 0 then 1/2
  else aucLoop (positives : ℚ) (negatives : ℚ) sorted 0 0 0 0 0

/-- ModelEvaluator.calculateMetrics.  The confusion counts compare
predictions[i] with actuals[i]; accuracy has no || 0 guard (0/0 is NaN on
empty input) while precision, recall and the f1 scores coerce a NaN from a
zero denominator to 0 via || 0. -/
def calculateMetrics (predictions actuals probabilities : List ℚ) : ModelMetrics :=
  let pairs := predictions.zip actuals
  let tp := pairs.countP (fun s => decide (s.1 = 1) && decide (s.2 = 1))
  let tn := pairs.countP (fun s => decide (s.1 = 0) && decide (s.2 = 0))
  let fp := pairs.countP (fun s => decide (s.1 = 1) && decide (s.2 = 0))
  let fn := pairs.countP (fun s => decide (s.1 = 0) && decide (s.2 = 1))
  let accuracy := jsDiv (.num ((tp : ℚ) + tn)) (.num ((tp : ℚ) + tn + fp + fn))
  let precisionScore : ℚ := if (tp : ℚ) + fp = 0 then 0 else (tp : ℚ) / ((tp : ℚ) + fp)
  let recallScore : ℚ := if (tp : ℚ) + fn = 0 then 0 else (tp : ℚ) / ((tp : ℚ) + fn)
  let f1Score : ℚ :=
    if precisionScore + recallScore = 0 then 0 else 2 * (precisionScore * recallScore) / (precisionScore + recallScore)
  let negativePrecision : ℚ := if (tn : ℚ) + fn = 0 then 0 else (tn : ℚ) / ((tn : ℚ) + fn)
  let negativeRecall : ℚ := if (tn : ℚ) + fp = 0 then 0 else (tn : ℚ) / ((tn : ℚ) + fp)
  let negativeF1 : ℚ :=
    if negativePrecision + negativeRecall = 0 then 0
    else 2 * (negativePrecision * negativeRecall) / (negativePrecision + negativeRecall)
  let positiveSupport := actuals.countP (fun a => decide (a = 1))
  let negativeSupport := actuals.countP (fun a => decide (a = 0))
  let total := positiveSupport + negativeSupport
  { accuracy := accuracy
    precisionScore := precisionScore
    recallScore := recallScore
    f1Score := f1Score
    confusionMatrix := ⟨tp, tn, fp, fn⟩
    rocAuc :=
      if probabilities.length = actuals.length then
        some (calculateROCAUC actuals probabilities)
      else none
    positive := ⟨precisionScore, recallScore, f1Score, positiveSupport⟩
    negative := ⟨negativePrecision, negativeRecall, negativeF1, negativeSupport⟩
    macroPrecision := (precisionScore + negativePrecision) / 2
    macroRecall := (recallScore + negativeRecall) / 2
    macroF1 := (f1Score + negativeF1) / 2
    weightedPrecision := jsDiv
      (.num (precisionScore * positiveSupport + negativePrecision * negativeSupport))
      (.num (total : ℚ))
    weightedRecall := jsDiv
      (.num (recallScore * positiveSupport + negativeRecall * negativeSupport))
      (.num (total : ℚ))
    weightedF1 := jsDiv
      (.num (f1Score * positiveSupport + negativeF1 * negativeSupport))
      (.num (total : ℚ)) }

structure DataQuality where
  totalSamples : ℕ
  positive : ℕ
  negative : ℕ
  missingValueRate : ℚ
  outlierRate : ℚ
deriving DecidableEq

/-- ModelEvaluator.assessDataQuality.  The outlier computation reads column
feature[feature.length - 6] of each sample (the source comment calls it the
success-rate feature), sorts ascending, takes Q1 and Q3 at the floored
quarter and three-quarter indexes, and counts entries outside the 1.5 IQR
fences.  Math.floor(n * 0.25) and Math.floor(n * 0.75) are exact for these
sizes and equal the natural-number divisions below. -/
def assessDataQuality (log1p : ℚ → ℚ) (now : ℚ) (habits : List Habit)
    (logs : List HabitLog) : DataQuality :=
  let td := createTrainingData log1p now habits logs
  if td.features.length = 0 then ⟨0, 0, 0, 0, 0⟩
  else
    let positive := td.labels.countP (fun l => decide (l = 1))
    let negative := td.labels.length - positive
    let missingCount := (td.features.map (fun f =>
      (List.range' 5 8).countP (fun i => decide (f.getD i 0 = 1/2)))).sum
    let totalFeatures := td.features.length * 8
    let missingValueRate : ℚ :=
      if 0 < totalFeatures then (missingCount : ℚ) / (totalFeatures : ℚ) else 0
    let successRates := sortByAsc id (td.features.map (fun f => f.getD (f.length - 6) 0))
    let n := successRates.length
    let q1 := successRates.getD (n / 4) 0
    let q3 := successRates.getD (3 * n / 4) 0
    let iqr := q3 - q1
    let lowerBound := q1 - 3/2 * iqr
    let upperBound := q3 + 3/2 * iqr
    let outliers := successRates.countP (fun sr => decide (sr < lowerBound ∨ upperBound < sr))
    ⟨td.features.length, positive, negative, missingValueRate, (outliers : ℚ) / (n : ℚ)⟩

end ModelEvaluator

/- ===== prediction-engine.ts (the variant importing ModelEvaluator,
minLogsForML = 10) ===== -/

inductive Confidence where
  | high | medium | low
deriving DecidableEq

/-- The Prediction record.  The free-form explanation string is not modelled
(no computation reads it). -/
structure Prediction where
  habitId : ℕ
  habitName : ℕ
  category : List ℕ
  probability : ℚ
  confidence : Confidence
  streak : ℕ
  successRate : ℚ
deriving DecidableEq

/-- The model state returned by PredictionEngine.train; of its fields the
claims only concern isTrained and totalSamples, so the optional
trainingDate / accuracy / featureImportance fields of the success path are
left to the pipeline argument of trainModel. -/
structure MLModelState where
  isTrained : Bool
  totalSamples : ℕ
deriving DecidableEq

namespace PredictionEngine

/-- PredictionEngine.generateHeuristicPrediction (prediction-engine.ts):
base 0.5, plus 0.4 weight on success rate, plus 0.3 weight on the capped
streak, minus 0.3 weight on the capped recency, clamped to [0, 1];
confidence by probability thresholds 0.7 / 0.4. -/
def generateHeuristicPrediction (now : ℚ) (habit : Habit) (logs : List HabitLog) :
    Prediction :=
  let stats := calculateHabitStats now habit logs
  let p1 := 1/2 + (stats.successRate - 1/2) * (2/5)
  let p2 := p1 + min ((stats.currentStreak : ℚ) / 7) 1 * (3/10)
  let p3 := p2 - min ((stats.daysSinceLastLog : ℚ) / 7) 1 * (3/10)
  let probability := max 0 (min 1 p3)
  let confidence : Confidence :=
    if 7/10 < probability then .high else if 2/5 < probability then .medium else .low
  ⟨habit.id, habit.name, habit.category, probability, confidence,
    stats.currentStreak, stats.successRate⟩

/-- PredictionEngine.predictForDate (prediction-engine.ts): heuristic
prediction for every active habit, sorted by probability descending (stable).
The targetDate parameter is accepted and ignored by this variant, as in the
source. -/
def predictForDate (now : ℚ) (habits : List Habit) (logs : List HabitLog)
    (targetDate : ℚ) : List Prediction :=
  sortByDesc Prediction.probability
    ((habits.filter (fun h => h.isActive)).map
      (fun habit => generateHeuristicPrediction now habit logs))

/-- PredictionEngine.train (prediction-engine.ts), with the body of its try
block abstracted as a pipeline function: any exception any step of the
pipeline raises is modelled by the pipeline returning an error, which the
catch clause maps to an untrained state carrying the sample count.  Total by
construction, so no exception ever propagates to the caller. -/
def trainModel (pipeline : List (List ℚ) → List ℚ → Except Unit MLModelState)
    (log1p : ℚ → ℚ) (now : ℚ) (habits : List Habit) (logs : List HabitLog) :
    MLModelState :=
  if logs.length < 10 then ⟨false, logs.length⟩
  else
    let td := createTrainingData log1p now habits logs
    if td.features.length = 0 then ⟨false, 0⟩
    else
      match pipeline td.features td.labels with
      | .ok st => st
      | .error _ => ⟨false, td.features.length⟩

end PredictionEngine

/- ===== The second PredictionEngine (the variant with ML predictions and
minLogsForML = 8) ===== -/

/-- Mutable state of the second PredictionEngine: the two base models and
the isTrained flag. -/
structure EngineState where
  lr : LogisticRegressionState
  tree : Option TreeNode
  isTrained : Bool
deriving DecidableEq

namespace PredictionEngineV2

/-- generateHeuristicPrediction of the second engine: same weighting, but
clamped to [0.1, 0.9] and confidence by total log count (more than 3 logs
gives medium, else low). -/
def generateHeuristicPrediction (now : ℚ) (habit : Habit) (logs : List HabitLog) :
    Prediction :=
  let stats := calculateHabitStats now habit logs
  let p1 := 1/2 + (stats.successRate - 1/2) * (2/5)
  let p2 := p1 + min ((stats.currentStreak : ℚ) / 7) 1 * (3/10)
  let p3 := p2 - min ((stats.daysSinceLastLog : ℚ) / 7) 1 * (3/10)
  let probability := max (1/10) (min (9/10) p3)
  let confidence : Confidence := if 3 < stats.totalLogs then .medium else .low
  ⟨habit.id, habit.name, habit.category, probability, confidence,
    stats.currentStreak, stats.successRate⟩

/-- generateMLPrediction of the second engine: 0.6 logistic + 0.4 tree blend
on the encoded features of the target date.  The logistic output is a JS
number; toQ extracts its rational value.  (For any state reachable through
train the weights cover all 19 encoded features, so the logistic output is
never NaN; an unreachable state with short weights would make JavaScript
sort on NaN, an implementation-defined order, and is outside this model.) -/
def generateMLPrediction (expf log1p : ℚ → ℚ) (now : ℚ) (st : EngineState)
    (habit : Habit) (logs : List HabitLog) (targetDate : ℚ) : Prediction :=
  let fs := extractFeatures now habit logs targetDate
  let x := encodeFeatures log1p fs
  let lrPrediction := LogisticRegression.predict expf st.lr x
  let dtPrediction := DecisionTree.predict st.tree x
  let probability := (jsAdd (jsMul lrPrediction (.num (3/5))) (.num (dtPrediction * (2/5)))).toQ
  let stats := calculateHabitStats now habit logs
  let confidence : Confidence :=
    if 20 < logs.length then .high else if 10 < logs.length then .medium else .low
  ⟨habit.id, habit.name, habit.category, probability, confidence,
    stats.currentStreak, stats.successRate⟩

/-- The per-habit choice inside predictForDate: the ML path when the engine
is trained and the habit has at least minLogsForML = 8 of its own logs, the
heuristic otherwise. -/
def predictionFor (expf log1p : ℚ → ℚ) (now : ℚ) (st : EngineState)
    (habit : Habit) (logs : List HabitLog) (targetDate : ℚ) : Prediction :=
  if st.isTrained = true ∧ 8 ≤ (logs.filter (fun l => l.habitId == habit.id)).length then
    generateMLPrediction expf log1p now st habit logs targetDate
  else
    generateHeuristicPrediction now habit logs

/-- predictForDate of the second engine: the loop that skips inactive habits
and pushes one prediction per remaining habit in input order, then sorts by
probability descending (stable). -/
def predictForDate (expf log1p : ℚ → ℚ) (now : ℚ) (st : EngineState)
    (habits : List Habit) (logs : List HabitLog) (targetDate : ℚ) : List Prediction :=
  sortByDesc Prediction.probability
    ((habits.filter (fun h => h.isActive)).map
      (fun habit => predictionFor expf log1p now st habit logs targetDate))

end PredictionEngineV2

/- ===== Auxiliary definitions used by the theorems below ===== -/

/-- Modelled from the claim text of the data-quality property: the 1.5 IQR
fence rule applied to one feature column — sort the column, take Q1 and Q3 at
the floored quarter and three-quarter positions, and return the fraction of
samples lying outside [Q1 - 1.5 IQR, Q3 + 1.5 IQR].  Used to compare the
column the code actually reads against the success-rate column the claim
names. -/
def iqrOutlierRate (column : List ℚ) : ℚ :=
  let sorted := sortByAsc id column
  let n := sorted.length
  let q1 := sorted.getD (n / 4) 0
  let q3 := sorted.getD (3 * n / 4) 0
  let iqr := q3 - q1
  let outliers := sorted.countP (fun v => decide (v < q1 - 3/2 * iqr ∨ q3 + 3/2 * iqr < v))
  (outliers : ℚ) / (n : ℚ)

/-- Concrete stand-in for Math.log1p used to evaluate closed instances.  The
theorems rely only on properties shared with the real log1p: it is zero at
zero and positive at the positive arguments involved. -/
def log1pStub : ℚ → ℚ := fun q => q / (1 + q)

/-- Concrete stand-in for Math.exp used to evaluate closed instances; the
only property any theorem uses is that it maps 0 to 1, as Math.exp does. -/
def expStub : ℚ → ℚ := fun q => 1 + q

/-- A pipeline that fails at once: the model of the try block raising on its
first step. -/
def failingPipeline : List (List ℚ) → List ℚ → Except Unit MLModelState :=
  fun _ _ => .error ()

/-- The habit of the end-to-end streak scenario. -/
def exerciseHabit : Habit := ⟨0, 0, [], .anytime, 0, true⟩

/-- Logs of the streak scenario: completed on days 1..8, then failed on days
9 and 10; evaluated at now = day 12, two days after the most recent log. -/
def exerciseLogs : List HabitLog :=
  [⟨0, 0, 1, true, none, none, none, none, none⟩,
   ⟨1, 0, 2, true, none, none, none, none, none⟩,
   ⟨2, 0, 3, true, none, none, none, none, none⟩,
   ⟨3, 0, 4, true, none, none, none, none, none⟩,
   ⟨4, 0, 5, true, none, none, none, none, none⟩,
   ⟨5, 0, 6, true, none, none, none, none, none⟩,
   ⟨6, 0, 7, true, none, none, none, none, none⟩,
   ⟨7, 0, 8, true, none, none, none, none, none⟩,
   ⟨8, 0, 9, false, none, none, none, none, none⟩,
   ⟨9, 0, 10, false, none, none, none, none, none⟩]

/-- The habit of the look-ahead-leakage scenario. -/
def leakHabit : Habit := ⟨0, 0, [], .anytime, 0, true⟩

/-- Logs of the look-ahead-leakage scenario: a failed log on day 1 and a
completed log on day 5. -/
def leakLogs : List HabitLog :=
  [⟨0, 0, 1, false, none, none, none, none, none⟩,
   ⟨1, 0, 5, true, none, none, none, none, none⟩]

/-- Three habits for the outlier-column scenario. -/
def iqrHabits : List Habit :=
  [⟨0, 0, [], .anytime, 0, true⟩, ⟨1, 1, [], .anytime, 0, true⟩, ⟨2, 2, [], .anytime, 0, true⟩]

/-- Logs for the outlier-column scenario: habits 0 and 1 each completed on
day 1 and failed on day 2 (success rate 1/2, current streak 0); habit 2 has a
single failed log (success rate 0, current streak 0).  Every sample therefore
carries 0 in the streak column, while the success-rate column is
[1/2, 1/2, 1/2, 1/2, 0], whose 0 lies outside the degenerate IQR fences. -/
def iqrLogs : List HabitLog :=
  [⟨0, 0, 1, true, none, none, none, none, none⟩,
   ⟨1, 0, 2, false, none, none, none, none, none⟩,
   ⟨2, 1, 1, true, none, none, none, none, none⟩,
   ⟨3, 1, 2, false, none, none, none, none, none⟩,
   ⟨4, 2, 1, false, none, none, none, none, none⟩]

/- ===== General lemmas ===== -/

theorem jsAdd_nan_left (y : JSVal) : jsAdd JSVal.nan y = JSVal.nan := by
  cases y <;> rfl

theorem jsMul_num_nan (a : ℚ) : jsMul (JSVal.num a) JSVal.nan = JSVal.nan := rfl

theorem foldl_jsAdd_nan {β : Type} (g : β → JSVal) (l : List β) :
    l.foldl (fun sum p => jsAdd sum (g p)) JSVal.nan = JSVal.nan := by
  induction l with
  | nil => rfl
  | cons x xs ih => simpa [jsAdd_nan_left] using ih

theorem sortByDesc_perm {α : Type} (key : α → ℚ) (l : List α) :
    (sortByDesc key l).Perm l :=
  List.perm_insertionSort _ l

theorem sortByDesc_sorted {α : Type} (key : α → ℚ) (l : List α) :
    List.Sorted (fun a b => key b ≤ key a) (sortByDesc key l) := by
  haveI : IsTotal α (fun a b => key b ≤ key a) := ⟨fun a b => le_total (key b) (key a)⟩
  haveI : IsTrans α (fun a b => key b ≤ key a) :=
    ⟨fun _ _ _ hab hbc => le_trans hbc hab⟩
  exact List.sorted_insertionSort _ l

theorem orderedInsert_filter_key {α : Type} (key : α → ℚ) (k : ℚ) (x : α) (l : List α) :
    (List.orderedInsert (fun a b => key b ≤ key a) x l).filter
        (fun a => decide (key a = k)) =
      if key x = k then x :: l.filter (fun a => decide (key a = k))
      else l.filter (fun a => decide (key a = k)) := by
  induction l with
  | nil =>
    by_cases hx : key x = k <;> simp [List.orderedInsert, hx]
  | cons y ys ih =>
    rcases le_or_lt (key y) (key x) with h | hlt
    · rw [List.orderedInsert, if_pos h]
      by_cases hx : key x = k <;> simp [List.filter_cons, hx]
    · rw [List.orderedInsert, if_neg (not_le_of_lt hlt)]
      by_cases hx : key x = k
      · have hy : ¬ key y = k := by rw [← hx]; exact (ne_of_gt hlt)
        simp [List.filter_cons, hy, ih, hx]
      · by_cases hy : key y = k <;> simp [List.filter_cons, hy, ih, hx]

theorem sortByDesc_filter_key {α : Type} (key : α → ℚ) (k : ℚ) (l : List α) :
    (sortByDesc key l).filter (fun a => decide (key a = k)) =
      l.filter (fun a => decide (key a = k)) := by
  induction l with
  | nil => rfl
  | cons x xs ih =>
    have hstep : sortByDesc key (x :: xs) =
        List.orderedInsert (fun a b => key b ≤ key a) x (sortByDesc key xs) := rfl
    rw [hstep, orderedInsert_filter_key key k x (sortByDesc key xs)]
    by_cases hx : key x = k <;> simp [hx, List.filter_cons, ih]

theorem dedup_const (v : ℚ) : ∀ (l : List ℚ), l ≠ [] → (∀ x ∈ l, x = v) → l.dedup = [v] := by
  intro l
  induction l with
  | nil => intro h; exact absurd rfl h
  | cons a t ih =>
    intro _ hall
    have ha : a = v := hall a (List.mem_cons_self a t)
    cases t with
    | nil => simp [ha]
    | cons b t2 =>
      have hb : b = v := hall b (List.mem_cons_of_mem _ (List.mem_cons_self b t2))
      have hmem : a ∈ b :: t2 := by
        rw [ha, hb]; exact List.mem_cons_self v t2
      rw [List.dedup_cons_of_mem hmem]
      exact ih (by simp) (fun x hx => hall x (List.mem_cons_of_mem _ hx))

/- ===== Claim theorems ===== -/

/-- Claim C1, evaluated at the failing input: for the habit with a failed log
on day 1 and a completed log on day 5, BOTH training samples (the first one
labelled with day 1, as the metadata conjunct shows) carry the success-rate
feature 1/2, the rate over the full history including the future day-5 log.
The claim demands 0 for the day-1 sample, so createTrainingData leaks
look-ahead information; this holds for every log1p and every clock value. -/
theorem createTrainingData_day1_success_feature (log1p : ℚ → ℚ) (now : ℚ) :
    ((createTrainingData log1p now [leakHabit] leakLogs).features.map
        (fun v => v.getD 15 0)) = [1/2, 1/2]
    ∧ (createTrainingData log1p now [leakHabit] leakLogs).metadata = [(0, 1), (0, 5)] :=
  ⟨rfl, rfl⟩

/-- Claim C2 counterexample: an untrained LogisticRegression does not return
0.5 — on the input [0] the dot product multiplies by the undefined entry of
the empty weight vector and predict returns NaN, which is not 0.5. -/
theorem untrained_logreg_predict_nan :
    LogisticRegression.predict expStub LogisticRegression.init [0] = JSVal.nan ∧
      JSVal.nan ≠ JSVal.num (1/2) := by
  refine ⟨by decide, by simp⟩

/-- Claim C2 as amended: an untrained DecisionTree returns 0.5 on every
input, but an untrained LogisticRegression returns 0.5 only on the empty
feature vector (sigmoid of the zero bias); on every nonempty input it
returns NaN, because the empty weight vector makes the dot product NaN.
Holds for every exp function with exp 0 = 1, which Math.exp satisfies. -/
theorem untrained_predict_amended (expf : ℚ → ℚ) (he : expf 0 = 1) (x : List ℚ) :
    DecisionTree.predict none x = 1/2
    ∧ (x ≠ [] → LogisticRegression.predict expf LogisticRegression.init x = JSVal.nan)
    ∧ LogisticRegression.predict expf LogisticRegression.init [] = JSVal.num (1/2) := by
  refine ⟨rfl, ?_, ?_⟩
  · intro hx
    match x, hx with
    | a :: rest, _ =>
      have hz : LogisticRegression.zOf LogisticRegression.init (a :: rest) =
          List.foldl (fun sum p => jsAdd sum
            (jsMul (.num p.2) (LogisticRegression.weightAt [] p.1)))
            JSVal.nan (List.enumFrom 1 rest) := rfl
      show LogisticRegression.sigmoid expf (LogisticRegression.zOf
        LogisticRegression.init (a :: rest)) = JSVal.nan
      rw [hz, foldl_jsAdd_nan]
      rfl
  · show LogisticRegression.sigmoid expf (JSVal.num 0) = JSVal.num (1/2)
    have h0 : max (-500 : ℚ) (min (500 : ℚ) 0) = 0 := by
      rw [min_def, max_def]; norm_num
    simp only [LogisticRegression.sigmoid, h0, neg_zero, he]
    norm_num

/-- Witness for the amended claim C2 at the concrete input [1] with the
concrete exp stand-in. -/
theorem untrained_predict_amended_witness :
    DecisionTree.predict none [1] = 1/2
    ∧ LogisticRegression.predict expStub LogisticRegression.init [1] = JSVal.nan := by
  have h := untrained_predict_amended expStub (by norm_num [expStub]) [1]
  exact ⟨h.1, h.2.1 (by simp)⟩

/-- Claim C3, evaluated at the failing input: for the habit completed on
days 1..8 and failed on days 9 and 10, with the clock two days after the most
recent log (now = day 12), calculateHabitStats reports currentStreak 0,
longestStreak 8 and successRate 0.8 as the claim states, but
daysSinceLastLog is 11, measured from the OLDEST log (day 1) because the
source reads sortedLogs[0] after reversing the array in place — not the 2
the claim requires. -/
theorem calculateHabitStats_from_oldest_log :
    calculateHabitStats 12 exerciseHabit exerciseLogs = ⟨0, 10, 8, 4/5, 0, 8, 11⟩ := by
  norm_num [calculateHabitStats, sortByDesc, List.insertionSort, List.orderedInsert,
    exerciseHabit, exerciseLogs, HabitStats.mk.injEq]

/-- Claim C10: a trained DecisionTree never predicts 0 — predict returns the
value stored in the reached leaf unless that value is 0, in which case the
JavaScript expression (node.prediction || 0.5) makes it return 0.5 instead,
so the only attainable outputs are 0.5 and nonzero stored leaf means. -/
theorem decisionTree_predict_never_zero (maxDepth minSamples : ℕ)
    (features : List (List ℚ)) (labels : List ℚ) (x : List ℚ) (hne : features ≠ []) :
    DecisionTree.predict (DecisionTree.train maxDepth minSamples none features labels) x =
      (if DecisionTree.walk (DecisionTree.buildTree maxDepth minSamples features labels 0) x = 0
       then 1/2
       else DecisionTree.walk (DecisionTree.buildTree maxDepth minSamples features labels 0) x)
    ∧ DecisionTree.predict (DecisionTree.train maxDepth minSamples none features labels) x ≠ 0 := by
  have ht : DecisionTree.train maxDepth minSamples none features labels =
      some (DecisionTree.buildTree maxDepth minSamples features labels 0) := by
    rw [DecisionTree.train, if_neg hne]
  rw [ht]
  refine ⟨rfl, ?_⟩
  show (if DecisionTree.walk (DecisionTree.buildTree maxDepth minSamples features labels 0) x = 0
       then (1 : ℚ)/2
       else DecisionTree.walk (DecisionTree.buildTree maxDepth minSamples features labels 0) x) ≠ 0
  split
  · norm_num
  · assumption

/-- Witness for claim C10: training on a single all-negative sample stores a
0-valued leaf, and predict returns 0.5 (not 0). -/
theorem decisionTree_predict_never_zero_witness :
    DecisionTree.predict (DecisionTree.train 4 3 none [[0]] [0]) [0] = 1/2
    ∧ DecisionTree.predict (DecisionTree.train 4 3 none [[0]] [0]) [0] ≠ 0 := by
  have h := decisionTree_predict_never_zero 4 3 [[0]] [0] [0] (by simp)
  have hw : DecisionTree.walk (DecisionTree.buildTree 4 3 [[0]] [0] 0) [0] = 0 := by
    have hcond : 4 ≤ 0 ∨ List.length [(0 : ℚ)] < 3 ∨ (List.dedup [(0 : ℚ)]).length = 1 := by
      simp
    have hb : DecisionTree.buildTree 4 3 [[0]] [0] 0 = TreeNode.leaf 0 := by
      rw [DecisionTree.buildTree, dif_pos hcond]
      norm_num
    rw [hb]
    rfl
  exact ⟨by rw [h.1, hw]; norm_num, h.2⟩

set_option maxHeartbeats 1000000

/-- Claim C4, evaluated at the failing input: for the three-habit scenario the
success-rate column (index 15 of the 19-entry encoded vectors) is
[1/2, 1/2, 1/2, 1/2, 0] and the 1.5 IQR fence rule over it flags the single 0
(rate 1/5), but assessDataQuality reports outlier rate 0, because it reads
column feature.length - 6 = 13, the log-scaled current-streak column (all
zeros here), despite its own comment calling the column the success-rate
feature. -/
theorem assessDataQuality_reads_streak_column :
    (ModelEvaluator.assessDataQuality log1pStub 3 iqrHabits iqrLogs).outlierRate = 0
    ∧ ((createTrainingData log1pStub 3 iqrHabits iqrLogs).features.map
        (fun f => f.getD 15 0)) = [1/2, 1/2, 1/2, 1/2, 0]
    ∧ iqrOutlierRate ((createTrainingData log1pStub 3 iqrHabits iqrLogs).features.map
        (fun f => f.getD 15 0)) = 1/5
    ∧ (0 : ℚ) ≠ 1/5 := by
  refine ⟨?_, ?_, ?_, by norm_num⟩
  · norm_num [ModelEvaluator.assessDataQuality, createTrainingData, extractFeatures,
      encodeFeatures, calculateHabitStats, recentLogFor, categoryHash, dayOfWeekOf,
      sortByAsc, sortByDesc, List.insertionSort, List.orderedInsert, log1pStub,
      iqrHabits, iqrLogs]
  · norm_num [createTrainingData, extractFeatures,
      encodeFeatures, calculateHabitStats, recentLogFor, categoryHash, dayOfWeekOf,
      sortByAsc, sortByDesc, List.insertionSort, List.orderedInsert, log1pStub,
      iqrHabits, iqrLogs]
  · norm_num [iqrOutlierRate, createTrainingData, extractFeatures,
      encodeFeatures, calculateHabitStats, recentLogFor, categoryHash, dayOfWeekOf,
      sortByAsc, sortByDesc, List.insertionSort, List.orderedInsert, log1pStub,
      iqrHabits, iqrLogs]

/-- Claim C6: PredictionEngine.train never lets a failure escape — with fewer
than minLogsForML = 10 logs it returns an untrained state carrying the log
count; with an empty engineered training set it returns an untrained state
with sample count 0; and when any step of the training pipeline (the try
block, abstracted as the pipeline argument) raises, the catch clause returns
an untrained state carrying the engineered sample count.  The embedded train
is total, so no exception propagates. -/
theorem trainModel_failure_paths
    (pipeline : List (List ℚ) → List ℚ → Except Unit MLModelState) (log1p : ℚ → ℚ)
    (now : ℚ) (habits : List Habit) (logs : List HabitLog) :
    (logs.length < 10 →
      PredictionEngine.trainModel pipeline log1p now habits logs = ⟨false, logs.length⟩)
    ∧ (¬ logs.length < 10 →
        (createTrainingData log1p now habits logs).features.length = 0 →
        PredictionEngine.trainModel pipeline log1p now habits logs = ⟨false, 0⟩)
    ∧ (∀ err : Unit, ¬ logs.length < 10 →
        (createTrainingData log1p now habits logs).features.length ≠ 0 →
        pipeline (createTrainingData log1p now habits logs).features
          (createTrainingData log1p now habits logs).labels = .error err →
        PredictionEngine.trainModel pipeline log1p now habits logs =
          ⟨false, (createTrainingData log1p now habits logs).features.length⟩) := by
  refine ⟨?_, ?_, ?_⟩
  · intro hlt
    rw [PredictionEngine.trainModel, if_pos hlt]
  · intro hge h0
    rw [PredictionEngine.trainModel, if_neg hge]
    simp only [h0, if_pos]
  · intro err hge hne hp
    rw [PredictionEngine.trainModel, if_neg hge]
    simp only [hne, if_neg, hp]
    simp

/-- Witness for claim C6: the three failure paths at concrete inputs — too
few logs, an empty training set (no habits), and a pipeline that raises on a
10-log training set of 10 samples. -/
theorem trainModel_failure_paths_witness :
    PredictionEngine.trainModel failingPipeline log1pStub 12 [exerciseHabit] [] = ⟨false, 0⟩
    ∧ PredictionEngine.trainModel failingPipeline log1pStub 12 [] exerciseLogs = ⟨false, 0⟩
    ∧ PredictionEngine.trainModel failingPipeline log1pStub 12 [exerciseHabit] exerciseLogs =
        ⟨false, 10⟩ := by
  refine ⟨(trainModel_failure_paths failingPipeline log1pStub 12 [exerciseHabit] []).1
    (by simp), ?_, ?_⟩
  · exact (trainModel_failure_paths failingPipeline log1pStub 12 [] exerciseLogs).2.1
      (by simp [exerciseLogs]) rfl
  · have hlen : (createTrainingData log1pStub 12 [exerciseHabit] exerciseLogs).features.length
        = 10 := rfl
    have h := (trainModel_failure_paths failingPipeline log1pStub 12
      [exerciseHabit] exerciseLogs).2.2 ()
    rw [hlen] at h
    exact h (by simp [exerciseLogs]) (by norm_num) rfl

/-- Claim C7: for both PredictionEngine implementations, predictForDate
returns a permutation of one prediction per active habit in input order (so
exactly one per active habit and none for an inactive habit), the output is
sorted by non-increasing probability, and for every probability value the
subsequence of predictions carrying it keeps the input habit order (the
stable-sort tie guarantee). -/
theorem predictForDate_active_sorted_stable :
    (∀ (now targetDate : ℚ) (habits : List Habit) (logs : List HabitLog),
      (PredictionEngine.predictForDate now habits logs targetDate).Perm
        ((habits.filter (fun h => h.isActive)).map
          (fun habit => PredictionEngine.generateHeuristicPrediction now habit logs))
      ∧ List.Sorted (fun a b => Prediction.probability b ≤ Prediction.probability a)
          (PredictionEngine.predictForDate now habits logs targetDate)
      ∧ ∀ k : ℚ,
          (PredictionEngine.predictForDate now habits logs targetDate).filter
              (fun p => decide (p.probability = k)) =
            ((habits.filter (fun h => h.isActive)).map
              (fun habit => PredictionEngine.generateHeuristicPrediction now habit logs)).filter
              (fun p => decide (p.probability = k)))
    ∧ (∀ (expf log1p : ℚ → ℚ) (now targetDate : ℚ) (st : EngineState)
        (habits : List Habit) (logs : List HabitLog),
      (PredictionEngineV2.predictForDate expf log1p now st habits logs targetDate).Perm
        ((habits.filter (fun h => h.isActive)).map
          (fun habit => PredictionEngineV2.predictionFor expf log1p now st habit logs targetDate))
      ∧ List.Sorted (fun a b => Prediction.probability b ≤ Prediction.probability a)
          (PredictionEngineV2.predictForDate expf log1p now st habits logs targetDate)
      ∧ ∀ k : ℚ,
          (PredictionEngineV2.predictForDate expf log1p now st habits logs targetDate).filter
              (fun p => decide (p.probability = k)) =
            ((habits.filter (fun h => h.isActive)).map
              (fun habit =>
                PredictionEngineV2.predictionFor expf log1p now st habit logs targetDate)).filter
              (fun p => decide (p.probability = k))) := by
  constructor
  · intro now targetDate habits logs
    exact ⟨sortByDesc_perm _ _, sortByDesc_sorted _ _,
      fun k => sortByDesc_filter_key _ k _⟩
  · intro expf log1p now targetDate st habits logs
    exact ⟨sortByDesc_perm _ _, sortByDesc_sorted _ _,
      fun k => sortByDesc_filter_key _ k _⟩

theorem countP_confusion_partition (l : List (ℚ × ℚ))
    (h : ∀ s ∈ l, (s.1 = 0 ∨ s.1 = 1) ∧ (s.2 = 0 ∨ s.2 = 1)) :
    l.countP (fun s => decide (s.1 = 1) && decide (s.2 = 1))
      + l.countP (fun s => decide (s.1 = 0) && decide (s.2 = 0))
      + l.countP (fun s => decide (s.1 = 1) && decide (s.2 = 0))
      + l.countP (fun s => decide (s.1 = 0) && decide (s.2 = 1)) = l.length := by
  induction l with
  | nil => rfl
  | cons p t ih =>
    have hp := h p (List.mem_cons_self p t)
    have iht := ih (fun q hq => h q (List.mem_cons_of_mem _ hq))
    rcases hp.1 with h1 | h1 <;> rcases hp.2 with h2 | h2 <;>
      simp only [List.countP_cons, List.length_cons, h1, h2] <;> norm_num <;> omega

theorem guardedRatio_bounds (u v : ℕ) :
    0 ≤ (if (u : ℚ) + v = 0 then 0 else (u : ℚ) / ((u : ℚ) + v))
    ∧ (if (u : ℚ) + v = 0 then 0 else (u : ℚ) / ((u : ℚ) + v)) ≤ 1 := by
  by_cases h : (u : ℚ) + v = 0
  · simp [h]
  · have hpos : 0 < (u : ℚ) + v := lt_of_le_of_ne (by positivity) (Ne.symm h)
    rw [if_neg h]
    refine ⟨div_nonneg (by positivity) hpos.le, ?_⟩
    rw [div_le_one hpos]
    have : (0 : ℚ) ≤ (v : ℚ) := by positivity
    linarith

theorem guardedF1_bounds (p r : ℚ) (hp0 : 0 ≤ p) (hp1 : p ≤ 1) (hr0 : 0 ≤ r) (hr1 : r ≤ 1) :
    0 ≤ (if p + r = 0 then 0 else 2 * (p * r) / (p + r))
    ∧ (if p + r = 0 then 0 else 2 * (p * r) / (p + r)) ≤ 1 := by
  by_cases h : p + r = 0
  · simp [h]
  · have hpr : 0 < p + r := lt_of_le_of_ne (by linarith) (Ne.symm h)
    rw [if_neg h]
    refine ⟨by positivity, ?_⟩
    rw [div_le_one hpr]
    nlinarith

/-- Claim C5 counterexample: on the (equal-length, vacuously binary) empty
input, calculateMetrics computes accuracy as 0/0, which is NaN — not a number
in [0, 1]. -/
theorem calculateMetrics_empty_accuracy_nan :
    (ModelEvaluator.calculateMetrics [] [] []).accuracy = JSVal.nan := by
  norm_num [ModelEvaluator.calculateMetrics, jsDiv]

/-- Claim C5 as amended: for equal-length binary predictions and actuals,
the confusion counts always sum to the input length, and — on NONEMPTY
input — accuracy is a number in [0, 1]; precision, recall and F1 are numbers
in [0, 1] with 0 (never NaN) returned whenever the corresponding denominator
is 0 (the || 0 guards; accuracy has no such guard and is NaN on empty
input, which is the one correction to the claim). -/
theorem calculateMetrics_bounds (preds actuals probs : List ℚ)
    (hlen : preds.length = actuals.length) (hne : preds ≠ [])
    (hp : ∀ p ∈ preds, p = 0 ∨ p = 1) (ha : ∀ a ∈ actuals, a = 0 ∨ a = 1) :
    ((ModelEvaluator.calculateMetrics preds actuals probs).confusionMatrix.truePositive
      + (ModelEvaluator.calculateMetrics preds actuals probs).confusionMatrix.trueNegative
      + (ModelEvaluator.calculateMetrics preds actuals probs).confusionMatrix.falsePositive
      + (ModelEvaluator.calculateMetrics preds actuals probs).confusionMatrix.falseNegative
      = preds.length)
    ∧ (∃ q : ℚ, (ModelEvaluator.calculateMetrics preds actuals probs).accuracy = JSVal.num q
        ∧ 0 ≤ q ∧ q ≤ 1)
    ∧ (0 ≤ (ModelEvaluator.calculateMetrics preds actuals probs).precisionScore
        ∧ (ModelEvaluator.calculateMetrics preds actuals probs).precisionScore ≤ 1)
    ∧ (0 ≤ (ModelEvaluator.calculateMetrics preds actuals probs).recallScore
        ∧ (ModelEvaluator.calculateMetrics preds actuals probs).recallScore ≤ 1)
    ∧ (0 ≤ (ModelEvaluator.calculateMetrics preds actuals probs).f1Score
        ∧ (ModelEvaluator.calculateMetrics preds actuals probs).f1Score ≤ 1) := by
  have hpart : (preds.zip actuals).countP (fun s => decide (s.1 = 1) && decide (s.2 = 1))
      + (preds.zip actuals).countP (fun s => decide (s.1 = 0) && decide (s.2 = 0))
      + (preds.zip actuals).countP (fun s => decide (s.1 = 1) && decide (s.2 = 0))
      + (preds.zip actuals).countP (fun s => decide (s.1 = 0) && decide (s.2 = 1))
      = (preds.zip actuals).length :=
    countP_confusion_partition _ (fun s hs =>
      ⟨hp _ (List.of_mem_zip hs).1, ha _ (List.of_mem_zip hs).2⟩)
  have hziplen : (preds.zip actuals).length = preds.length := by
    rw [List.length_zip, hlen, min_self]
  have htp : (ModelEvaluator.calculateMetrics preds actuals probs).confusionMatrix.truePositive
      = (preds.zip actuals).countP (fun s => decide (s.1 = 1) && decide (s.2 = 1)) := rfl
  have htn : (ModelEvaluator.calculateMetrics preds actuals probs).confusionMatrix.trueNegative
      = (preds.zip actuals).countP (fun s => decide (s.1 = 0) && decide (s.2 = 0)) := rfl
  have hfp : (ModelEvaluator.calculateMetrics preds actuals probs).confusionMatrix.falsePositive
      = (preds.zip actuals).countP (fun s => decide (s.1 = 1) && decide (s.2 = 0)) := rfl
  have hfn : (ModelEvaluator.calculateMetrics preds actuals probs).confusionMatrix.falseNegative
      = (preds.zip actuals).countP (fun s => decide (s.1 = 0) && decide (s.2 = 1)) := rfl
  have hsum : (ModelEvaluator.calculateMetrics preds actuals probs).confusionMatrix.truePositive
      + (ModelEvaluator.calculateMetrics preds actuals probs).confusionMatrix.trueNegative
      + (ModelEvaluator.calculateMetrics preds actuals probs).confusionMatrix.falsePositive
      + (ModelEvaluator.calculateMetrics preds actuals probs).confusionMatrix.falseNegative
      = preds.length := by rw [htp, htn, hfp, hfn, hpart, hziplen]
  refine ⟨hsum, ?_, ?_, ?_, ?_⟩
  · -- accuracy = (tp + tn) / n with n = tp + tn + fp + fn = |preds| > 0
    set tp := (preds.zip actuals).countP (fun s => decide (s.1 = 1) && decide (s.2 = 1)) with htpd
    set tn := (preds.zip actuals).countP (fun s => decide (s.1 = 0) && decide (s.2 = 0)) with htnd
    set fp := (preds.zip actuals).countP (fun s => decide (s.1 = 1) && decide (s.2 = 0)) with hfpd
    set fn := (preds.zip actuals).countP (fun s => decide (s.1 = 0) && decide (s.2 = 1)) with hfnd
    have hlenpos : 0 < preds.length := List.length_pos.mpr hne
    have hnsum : tp + tn + fp + fn = preds.length := by
      rw [htpd, htnd, hfpd, hfnd, hpart, hziplen]
    have hden : ((tp : ℚ) + tn + fp + fn) ≠ 0 := by
      have : ((tp : ℚ) + tn + fp + fn) = ((tp + tn + fp + fn : ℕ) : ℚ) := by push_cast; ring
      rw [this, hnsum]
      exact_mod_cast Nat.pos_iff_ne_zero.mp hlenpos
    have hacc : (ModelEvaluator.calculateMetrics preds actuals probs).accuracy =
        jsDiv (.num ((tp : ℚ) + tn)) (.num ((tp : ℚ) + tn + fp + fn)) := rfl
    refine ⟨((tp : ℚ) + tn) / ((tp : ℚ) + tn + fp + fn), ?_, ?_, ?_⟩
    · rw [hacc]
      show (if ((tp : ℚ) + tn + fp + fn) = 0 then JSVal.nan
        else JSVal.num (((tp : ℚ) + tn) / ((tp : ℚ) + tn + fp + fn))) = _
      rw [if_neg hden]
    · have hdpos : 0 < ((tp : ℚ) + tn + fp + fn) :=
        lt_of_le_of_ne (by positivity) (Ne.symm hden)
      exact div_nonneg (by positivity) hdpos.le
    · have hdpos : 0 < ((tp : ℚ) + tn + fp + fn) :=
        lt_of_le_of_ne (by positivity) (Ne.symm hden)
      rw [div_le_one hdpos]
      have h1 : (0 : ℚ) ≤ (fp : ℚ) := by positivity
      have h2 : (0 : ℚ) ≤ (fn : ℚ) := by positivity
      linarith
  · exact guardedRatio_bounds _ _
  · exact guardedRatio_bounds _ _
  · have hpb := guardedRatio_bounds ((preds.zip actuals).countP
      (fun s => decide (s.1 = 1) && decide (s.2 = 1)))
      ((preds.zip actuals).countP (fun s => decide (s.1 = 1) && decide (s.2 = 0)))
    have hrb := guardedRatio_bounds ((preds.zip actuals).countP
      (fun s => decide (s.1 = 1) && decide (s.2 = 1)))
      ((preds.zip actuals).countP (fun s => decide (s.1 = 0) && decide (s.2 = 1)))
    exact guardedF1_bounds _ _ hpb.1 hpb.2 hrb.1 hrb.2

/-- Witness for the amended claim C5 at the concrete input
predictions [1, 0], actuals [1, 1]. -/
theorem calculateMetrics_bounds_witness :
    ((ModelEvaluator.calculateMetrics [1, 0] [1, 1] []).confusionMatrix.truePositive
      + (ModelEvaluator.calculateMetrics [1, 0] [1, 1] []).confusionMatrix.trueNegative
      + (ModelEvaluator.calculateMetrics [1, 0] [1, 1] []).confusionMatrix.falsePositive
      + (ModelEvaluator.calculateMetrics [1, 0] [1, 1] []).confusionMatrix.falseNegative = 2)
    ∧ (∃ q : ℚ, (ModelEvaluator.calculateMetrics [1, 0] [1, 1] []).accuracy = JSVal.num q
        ∧ 0 ≤ q ∧ q ≤ 1)
    ∧ (0 ≤ (ModelEvaluator.calculateMetrics [1, 0] [1, 1] []).precisionScore
        ∧ (ModelEvaluator.calculateMetrics [1, 0] [1, 1] []).precisionScore ≤ 1)
    ∧ (0 ≤ (ModelEvaluator.calculateMetrics [1, 0] [1, 1] []).recallScore
        ∧ (ModelEvaluator.calculateMetrics [1, 0] [1, 1] []).recallScore ≤ 1)
    ∧ (0 ≤ (ModelEvaluator.calculateMetrics [1, 0] [1, 1] []).f1Score
        ∧ (ModelEvaluator.calculateMetrics [1, 0] [1, 1] []).f1Score ≤ 1) := by
  have h := calculateMetrics_bounds [1, 0] [1, 1] [] rfl (by simp)
    (by intro p hp; simp only [List.mem_cons, List.not_mem_nil, or_false] at hp
        rcases hp with h | h <;> simp [h])
    (by intro a ha; simp only [List.mem_cons, List.not_mem_nil, or_false] at ha
        rcases ha with h | h <;> simp [h])
  simpa using h

/-- Claim C8: every numerical evaluation primitive returns its documented
sentinel on degenerate input instead of NaN or an exception — calculateGini
returns 0 on the empty and on any single-class label set, calculateROCAUC
returns 0.5 when only one class is present, and the Pearson correlation
returns 0 when either input column is constant (zero denominator), for any
square root function behaving like the real one (zero exactly at zero on
nonnegative arguments). -/
theorem degenerate_evaluation_defaults :
    DecisionTree.calculateGini [] = 0
    ∧ (∀ (v : ℚ) (labels : List ℚ), labels ≠ [] → (∀ x ∈ labels, x = v) →
        DecisionTree.calculateGini labels = 0)
    ∧ (∀ (actuals probs : List ℚ),
        ((∀ a ∈ actuals, a = 1) ∨ (∀ a ∈ actuals, a = 0)) →
        ModelEvaluator.calculateROCAUC actuals probs = 1/2)
    ∧ (∀ (sqrt : ℚ → ℚ), (∀ q : ℚ, 0 ≤ q → (sqrt q = 0 ↔ q = 0)) →
        ∀ (x y : List ℚ) (c : ℚ), x.length = y.length →
        ((∀ v ∈ x, v = c) ∨ (∀ v ∈ y, v = c)) →
        calculateCorrelation sqrt x y = 0) := by
  refine ⟨rfl, ?_, ?_, ?_⟩
  · intro v labels hne hall
    rw [DecisionTree.calculateGini, if_neg hne, dedup_const v labels hne hall]
    have hcount : labels.countP (fun x => decide (x = v)) = labels.length :=
      List.countP_eq_length.mpr (fun a ha => by simp [hall a ha])
    have hlen0 : (labels.length : ℚ) ≠ 0 := by
      exact_mod_cast Nat.pos_iff_ne_zero.mp (List.length_pos.mpr hne)
    simp only [List.map_cons, List.map_nil, List.sum_cons, List.sum_nil, hcount,
      div_self hlen0]
    norm_num
  · intro actuals probs hcase
    rw [ModelEvaluator.calculateROCAUC]
    rcases hcase with h1 | h0
    · have hc : actuals.countP (fun a => decide (a = 1)) = actuals.length :=
        List.countP_eq_length.mpr (fun a ha => by simp [h1 a ha])
      rw [hc, if_pos (Or.inr (Nat.sub_self _))]
    · have hc : actuals.countP (fun a => decide (a = 1)) = 0 :=
        List.countP_eq_zero.mpr (fun a ha => by simp [h0 a ha])
      rw [hc, if_pos (Or.inl rfl)]
  · intro sqrt hs x y c hxy hcase
    rw [calculateCorrelation]
    by_cases hn : x.length = 0
    · rw [if_pos hn]
    · rw [if_neg hn]
      dsimp only
      have hlen0 : (x.length : ℚ) ≠ 0 := by exact_mod_cast hn
      rcases hcase with hx | hy
      · have hsum : x.sum = x.length * c := by
          rw [List.sum_eq_card_nsmul x c hx, nsmul_eq_mul]
        have hdx : ((List.range x.length).map
            (fun i => (x.getD i 0 - x.sum / x.length) * (x.getD i 0 - x.sum / x.length))).sum
            = 0 := by
          apply List.sum_eq_zero
          intro z hz
          simp only [List.mem_map, List.mem_range] at hz
          obtain ⟨i, hi, rfl⟩ := hz
          have hgi : x.getD i 0 = c := by
            rw [List.getD_eq_getElem x 0 hi]
            exact hx _ (List.getElem_mem hi)
          rw [hgi, hsum]
          field_simp
        rw [hdx, zero_mul]
        rw [if_pos ((hs 0 le_rfl).mpr rfl)]
      · have hsum : y.sum = y.length * c := by
          rw [List.sum_eq_card_nsmul y c hy, nsmul_eq_mul]
        have hdy : ((List.range x.length).map
            (fun i => (y.getD i 0 - y.sum / x.length) * (y.getD i 0 - y.sum / x.length))).sum
            = 0 := by
          apply List.sum_eq_zero
          intro z hz
          simp only [List.mem_map, List.mem_range] at hz
          obtain ⟨i, hi, rfl⟩ := hz
          have hiy : i < y.length := by omega
          have hgi : y.getD i 0 = c := by
            rw [List.getD_eq_getElem y 0 hiy]
            exact hy _ (List.getElem_mem hiy)
          rw [hgi, hsum, ← hxy]
          field_simp
        rw [hdy, mul_zero]
        rw [if_pos ((hs 0 le_rfl).mpr rfl)]

/-- Witness for claim C8 at concrete degenerate inputs: a single-class label
set, single-class actuals, and a constant column (with the identity as the
square-root stand-in, which is zero exactly at zero). -/
theorem degenerate_evaluation_defaults_witness :
    DecisionTree.calculateGini [1, 1, 1] = 0
    ∧ ModelEvaluator.calculateROCAUC [1, 1] [1/2, 1/3] = 1/2
    ∧ calculateCorrelation id [2, 2] [0, 1] = 0 := by
  have h := degenerate_evaluation_defaults
  refine ⟨h.2.1 1 [1, 1, 1] (by simp) ?_, h.2.2.1 [1, 1] [1/2, 1/3] (Or.inl ?_),
    h.2.2.2 id (fun q _ => Iff.rfl) [2, 2] [0, 1] 2 rfl (Or.inl ?_)⟩
  · intro a ha
    simp only [List.mem_cons, List.not_mem_nil, or_false] at ha
    rcases ha with h | h | h <;> simp [h]
  · intro a ha
    simp only [List.mem_cons, List.not_mem_nil, or_false] at ha
    rcases ha with h | h <;> simp [h]
  · intro a ha
    simp only [List.mem_cons, List.not_mem_nil, or_false] at ha
    rcases ha with h | h <;> simp [h]

/-- Claim C9: feature encoding is deterministic (a pure function of the
(habit, logs, targetDate) triple and the clock), and whenever the most recent
log on or before the target date lacks a contextual field — or no such log
exists — the corresponding encoded slots are exactly the documented default
constants: mood 0.5 (slot 5), sleep 0.75 (slot 6), energy 0.5 (slot 7),
stress 0.5 (slot 8) and the all-zero weather one-hot (slots 9-12).  All slots
are exact rationals, so none is ever NaN. -/
theorem encodeFeatures_deterministic_defaults (log1p : ℚ → ℚ) (now : ℚ)
    (habit : Habit) (logs : List HabitLog) (targetDate : ℚ) :
    encodeFeatures log1p (extractFeatures now habit logs targetDate) =
      encodeFeatures log1p (extractFeatures now habit logs targetDate)
    ∧ ((recentLogFor habit logs targetDate).bind (fun l => l.mood) = none →
        (encodeFeatures log1p (extractFeatures now habit logs targetDate)).getD 5 0 = 1/2)
    ∧ ((recentLogFor habit logs targetDate).bind (fun l => l.sleepHours) = none →
        (encodeFeatures log1p (extractFeatures now habit logs targetDate)).getD 6 0 = 3/4)
    ∧ ((recentLogFor habit logs targetDate).bind (fun l => l.energyLevel) = none →
        (encodeFeatures log1p (extractFeatures now habit logs targetDate)).getD 7 0 = 1/2)
    ∧ ((recentLogFor habit logs targetDate).bind (fun l => l.stressLevel) = none →
        (encodeFeatures log1p (extractFeatures now habit logs targetDate)).getD 8 0 = 1/2)
    ∧ ((recentLogFor habit logs targetDate).bind (fun l => l.weather) = none →
        (encodeFeatures log1p (extractFeatures now habit logs targetDate)).getD 9 0 = 0
        ∧ (encodeFeatures log1p (extractFeatures now habit logs targetDate)).getD 10 0 = 0
        ∧ (encodeFeatures log1p (extractFeatures now habit logs targetDate)).getD 11 0 = 0
        ∧ (encodeFeatures log1p (extractFeatures now habit logs targetDate)).getD 12 0 = 0) := by
  refine ⟨rfl, ?_, ?_, ?_, ?_, ?_⟩
  · intro h
    simp only [encodeFeatures, extractFeatures]
    simp [List.getD_cons_succ, List.getD_cons_zero, h]
  · intro h
    simp only [encodeFeatures, extractFeatures]
    simp [List.getD_cons_succ, List.getD_cons_zero, h]
  · intro h
    simp only [encodeFeatures, extractFeatures]
    simp [List.getD_cons_succ, List.getD_cons_zero, h]
  · intro h
    simp only [encodeFeatures, extractFeatures]
    simp [List.getD_cons_succ, List.getD_cons_zero, h]
  · intro h
    simp only [encodeFeatures, extractFeatures]
    refine ⟨?_, ?_, ?_, ?_⟩ <;> simp [List.getD_cons_succ, List.getD_cons_zero, h]

/-- Witness for claim C9 at a concrete triple: the most recent log on or
before day 5 (the day-5 log of the leakage scenario) has no contextual
fields, and every default slot evaluates to its documented constant. -/
theorem encodeFeatures_deterministic_defaults_witness :
    (encodeFeatures log1pStub (extractFeatures 6 leakHabit leakLogs 5)).getD 5 0 = 1/2
    ∧ (encodeFeatures log1pStub (extractFeatures 6 leakHabit leakLogs 5)).getD 6 0 = 3/4
    ∧ (encodeFeatures log1pStub (extractFeatures 6 leakHabit leakLogs 5)).getD 7 0 = 1/2
    ∧ (encodeFeatures log1pStub (extractFeatures 6 leakHabit leakLogs 5)).getD 8 0 = 1/2
    ∧ (encodeFeatures log1pStub (extractFeatures 6 leakHabit leakLogs 5)).getD 9 0 = 0
    ∧ (encodeFeatures log1pStub (extractFeatures 6 leakHabit leakLogs 5)).getD 12 0 = 0 := by
  have hm : (recentLogFor leakHabit leakLogs 5).bind (fun l => l.mood) = none := by
    norm_num [recentLogFor, sortByDesc, List.insertionSort, List.orderedInsert,
      leakHabit, leakLogs]
  have hsl : (recentLogFor leakHabit leakLogs 5).bind (fun l => l.sleepHours) = none := by
    norm_num [recentLogFor, sortByDesc, List.insertionSort, List.orderedInsert,
      leakHabit, leakLogs]
  have hen : (recentLogFor leakHabit leakLogs 5).bind (fun l => l.energyLevel) = none := by
    norm_num [recentLogFor, sortByDesc, List.insertionSort, List.orderedInsert,
      leakHabit, leakLogs]
  have hst : (recentLogFor leakHabit leakLogs 5).bind (fun l => l.stressLevel) = none := by
    norm_num [recentLogFor, sortByDesc, List.insertionSort, List.orderedInsert,
      leakHabit, leakLogs]
  have hw : (recentLogFor leakHabit leakLogs 5).bind (fun l => l.weather) = none := by
    norm_num [recentLogFor, sortByDesc, List.insertionSort, List.orderedInsert,
      leakHabit, leakLogs]
  have h := encodeFeatures_deterministic_defaults log1pStub 6 leakHabit leakLogs 5
  exact ⟨h.2.1 hm, h.2.2.1 hsl, h.2.2.2.1 hen, h.2.2.2.2.1 hst,
    (h.2.2.2.2.2 hw).1, (h.2.2.2.2.2 hw).2.2.2⟩
